import Mathlib

/-!
Verification of the multi-format document export engine of the
`ai-context-hub` repository (`src/lib/api-content.ts`) and of the bulk
`GET /api/export` aggregation handler, as a shallow embedding in Lean 4.

Modelling conventions:
* TypeScript strings are Lean `String`s (all inputs of interest are ASCII,
  where JS UTF-16 `length`, `toLowerCase`, `toUpperCase` agree with Lean's
  `String.length`, `String.toLower`, `String.toUpper`).
* `new Date().toISOString()` and `new Date().toLocaleDateString()` are
  modelled by explicit clock parameters `nowIso` / `nowLocale` threaded
  into every function that reads the clock.
* A JS `Blob` is a record of its payload and MIME type.  For the JSON
  exporters the payload is the constructed JSON value itself
  (`BlobData.jsonData`): `JSON.stringify` with two-space indentation is a
  faithful (injective) serialization, so "parsing the blob" recovers
  exactly this value; properties about the parsed output are stated about
  the value.
* The `content: string | { files: [...] }` union (discriminated in the
  source by `typeof content === "string"` and by truthiness of
  `content.files`) is the inductive `Content`; an object without a `files`
  field is `Content.obj none extra`.  A JS object with `files: []` is
  `Content.obj (some []) extra` (an empty array is truthy in JS).
* JS regex replacement chains (the plain-text Markdown stripping and XML
  escaping) are embedded as left-to-right scanners over `List Char`,
  mirroring the exact regex semantics (lazy groups, `.` not matching line
  terminators, `\s` as the JS whitespace class).
-/

/-! ### Small string helpers mirroring JS primitives -/

/-- The double-quote character. -/
def quoteC : Char := Char.ofNat 34

/-- The apostrophe character. -/
def aposC : Char := Char.ofNat 39

/-- The backtick character. -/
def btick : Char := Char.ofNat 96

/-- JS `String.prototype.toLowerCase` (character-wise; agrees with the
source's use, whose inputs are ASCII). -/
def jsToLower (s : String) : String := String.mk (s.data.map Char.toLower)

/-- JS `String.prototype.toUpperCase` (character-wise; agrees with the
source's use, whose inputs are ASCII). -/
def jsToUpper (s : String) : String := String.mk (s.data.map Char.toUpper)

/-- JS `String.prototype.repeat`: `s.repeat n` concatenates `n` copies of `s`. -/
def jsRepeat (s : String) (n : Nat) : String :=
  String.join (List.replicate n s)

/-- The `forEach` accumulation pattern `if (index > 0) acc += sep; acc += f x`
used throughout the exporters: map then join with `sep` between entries
(no separator before the first or after the last). -/
def sepMapJoin (sep : String) (f : α → String) : List α → String
  | [] => ""
  | [a] => f a
  | a :: b :: rest => f a ++ sep ++ sepMapJoin sep f (b :: rest)

/-- One JS `str.replace(/c/g, rep)` pass for a single-character pattern:
every occurrence of `c` is replaced by `rep`; replacements are not
re-scanned. -/
def replaceChar (c : Char) (rep : List Char) : List Char → List Char
  | [] => []
  | x :: xs => if x = c then rep ++ replaceChar c rep xs else x :: replaceChar c rep xs

/-- The five sequential replacement passes of `escapeXML`, in source
order `&`, `<`, `>`, `"`, `'`. -/
def escapeXMLChars (l : List Char) : List Char :=
  replaceChar aposC "&apos;".data
    (replaceChar quoteC "&quot;".data
      (replaceChar '>' "&gt;".data
        (replaceChar '<' "&lt;".data
          (replaceChar '&' "&amp;".data l))))

/-- The function `escapeXML` from `src/lib/api-content.ts`: five sequential global
single-character replacements, in source order `&`, `<`, `>`, `"`, `'`. -/
def escapeXML (s : String) : String :=
  String.mk (escapeXMLChars s.data)

/-! ### Data model -/

/-- A JSON value as constructed by the exporters (objects keep insertion
order of their fields, as `JSON.stringify` serializes them). -/
inductive Json where
  | str : String → Json
  | num : Nat → Json
  | obj : List (String × Json) → Json
  | arr : List Json → Json

/-- Property access on a JSON object (`none` off objects / missing keys). -/
def jsonLookup (key : String) : Json → Option Json
  | Json.obj fields => fields.lookup key
  | _ => none

/-- One entry of the `files` array of a structured content object
(`{ title: string; content: string }`). -/
structure FileSection where
  title : String
  content : String

/-- The `content` argument of the exporters:
either a bare string, or an object, whose `files` field (if present)
holds the sections and whose remaining fields are arbitrary JSON. -/
inductive Content where
  | str : String → Content
  | obj : Option (List FileSection) → List (String × Json) → Content

/-- The JSON value of a section entry (keeps its `title`/`content` keys). -/
def sectionToJson (f : FileSection) : Json :=
  Json.obj [("title", Json.str f.title), ("content", Json.str f.content)]

/-- The JSON value denoted by a `Content` (a bare string serializes as a
JSON string; an object serializes with its `files` array, when present,
and its other fields). -/
def contentToJson : Content → Json
  | Content.str s => Json.str s
  | Content.obj (some fs) rest => Json.obj (("files", Json.arr (fs.map sectionToJson)) :: rest)
  | Content.obj none rest => Json.obj rest

/-- Payload of a blob: plain text, or a JSON value (standing for its
`JSON.stringify(·, null, 2)` serialization). -/
inductive BlobData where
  | text : String → BlobData
  | jsonData : Json → BlobData

/-- A JS `Blob` together with its declared MIME type. -/
structure Blob where
  data : BlobData
  mime : String

/-! ### The plain-text Markdown-stripping transform

The text exporters run the six sequential global regex substitutions

  `.replace` of the pattern `#{1,6}\s` by the empty string
  `.replace` of `\*\*(.*?)\*\*` by the group
  `.replace` of `\*(.*?)\*` by the group
  `.replace` of the backtick inline-code pattern by the group
  `.replace` of the fenced-code-block pattern by the empty string
  `.replace` of the link pattern by the link text

Each pass is a left-to-right scan: at every position the engine tries the
pattern; on a match it emits the replacement and resumes after the match,
otherwise it emits one character and advances.  `.` does not match line
terminators; `\s` is the JS whitespace class; `(.*?)` is lazy (shortest
match). -/

/-- The JS regex `\s` whitespace class. -/
def isSpaceJS (c : Char) : Bool :=
  c = ' ' || c = '\t' || c = '\n' || c = '\r' ||
  c = Char.ofNat 11 || c = Char.ofNat 12 || c = Char.ofNat 160 ||
  c = Char.ofNat 0x1680 || (0x2000 ≤ c.toNat && c.toNat ≤ 0x200a) ||
  c = Char.ofNat 0x2028 || c = Char.ofNat 0x2029 || c = Char.ofNat 0x202f ||
  c = Char.ofNat 0x205f || c = Char.ofNat 0x3000 || c = Char.ofNat 0xfeff

/-- JS regex line terminators (which `.` does not match). -/
def isLineTerm (c : Char) : Bool :=
  c = '\n' || c = '\r' || c = Char.ofNat 0x2028 || c = Char.ofNat 0x2029

/-- Generic left-to-right global-replace scanner.  `step cs` returns
`some (out, rest)` when the pattern matches at the start of `cs` (emitting
`out` and resuming at `rest`, which every step makes strictly shorter),
`none` otherwise.  Structurally recursive on a fuel argument; the
wrappers pass the input length as fuel, which is never exhausted since
each iteration consumes at least one character. -/
def scanRewriteF (step : List Char → Option (List Char × List Char)) :
    Nat → List Char → List Char
  | _, [] => []
  | 0, l => l
  | fuel + 1, c :: cs =>
    match step (c :: cs) with
    | some (out, rest) => out ++ scanRewriteF step fuel rest
    | none => c :: scanRewriteF step fuel cs

/-- Length of the leading run of `#` characters. -/
def hashRun : List Char → Nat
  | c :: cs => if c = '#' then hashRun cs + 1 else 0
  | _ => 0

/-- Match of `#{1,6}\s` at the start of the input: a maximal leading run of
1–6 `#` followed by one whitespace character (a run longer than 6 cannot
match at its own start; the scanner advances into it instead, exactly as
the JS engine does).  The whole match is deleted. -/
def headerStep (cs : List Char) : Option (List Char × List Char) :=
  let r := hashRun cs
  if 1 ≤ r ∧ r ≤ 6 then
    match cs.drop r with
    | d :: rest => if isSpaceJS d then some ([], rest) else none
    | [] => none
  else none

/-- Lazy search for a single closing delimiter `q`: returns the group (all
characters before the first `q`, none of them line terminators) and the
remainder after `q`. -/
def lazyClose1 (q : Char) : List Char → Option (List Char × List Char)
  | x :: rest =>
    if x = q then some ([], rest)
    else if isLineTerm x then none
    else
      match lazyClose1 q rest with
      | some (g, r) => some (x :: g, r)
      | none => none
  | [] => none

/-- Lazy search for a doubled closing delimiter `qq`: returns the group
(characters before the first `qq`, none of them line terminators) and the
remainder after it. -/
def lazyClose2 (q : Char) : List Char → Option (List Char × List Char)
  | c1 :: c2 :: rest =>
    if c1 = q ∧ c2 = q then some ([], rest)
    else if isLineTerm c1 then none
    else
      match lazyClose2 q (c2 :: rest) with
      | some (g, r) => some (c1 :: g, r)
      | none => none
  | _ => none

/-- Lazy search for a closing triple backtick (any characters before it,
`[\s\S]` matches line terminators too): remainder after the fence. -/
def lazyFence : List Char → Option (List Char)
  | c1 :: c2 :: c3 :: rest =>
    if c1 = btick ∧ c2 = btick ∧ c3 = btick then some rest
    else lazyFence (c2 :: c3 :: rest)
  | _ => none

/-- Match of `\*\*(.*?)\*\*` at the start: emits the group. -/
def boldStep : List Char → Option (List Char × List Char)
  | c1 :: c2 :: rest => if c1 = '*' ∧ c2 = '*' then lazyClose2 '*' rest else none
  | _ => none

/-- Match of `\*(.*?)\*` at the start: emits the group. -/
def italicStep : List Char → Option (List Char × List Char)
  | c :: rest => if c = '*' then lazyClose1 '*' rest else none
  | _ => none

/-- Match of the backtick-delimited inline-code pattern at the start:
emits the group. -/
def inlineCodeStep : List Char → Option (List Char × List Char)
  | c :: rest => if c = btick then lazyClose1 btick rest else none
  | _ => none

/-- Match of the fenced-code-block pattern at the start: the whole match
(fences and contents) is deleted. -/
def codeBlockStep : List Char → Option (List Char × List Char)
  | c1 :: c2 :: c3 :: rest =>
    if c1 = btick ∧ c2 = btick ∧ c3 = btick then
      match lazyFence rest with
      | some r => some ([], r)
      | none => none
    else none
  | _ => none

/-- Match of `\[([^\]]+)\]\([^)]+\)` at the start: emits the link text. -/
def linkStep : List Char → Option (List Char × List Char)
  | c :: rest =>
    if c = '[' then
      let t := rest.takeWhile (fun x => !(x = ']'))
      match rest.drop t.length with
      | ']' :: '(' :: rest2 =>
        if t = [] then none
        else
          let u := rest2.takeWhile (fun x => !(x = ')'))
          match rest2.drop u.length with
          | ')' :: rest3 => if u = [] then none else some (t, rest3)
          | _ => none
      | _ => none
    else none
  | [] => none

/-- Pass 1, removing ATX heading markers. -/
def removeHeaders (l : List Char) : List Char := scanRewriteF headerStep l.length l

/-- Pass 2, unwrapping bold spans. -/
def removeBold (l : List Char) : List Char := scanRewriteF boldStep l.length l

/-- Pass 3, unwrapping italic spans. -/
def removeItalic (l : List Char) : List Char := scanRewriteF italicStep l.length l

/-- The backtick inline-code unwrapping pass. -/
def removeInlineCode (l : List Char) : List Char := scanRewriteF inlineCodeStep l.length l

/-- The fenced-code-block deletion pass. -/
def removeCodeBlocks (l : List Char) : List Char := scanRewriteF codeBlockStep l.length l

/-- Pass 6, rewriting Markdown links to their text. -/
def removeLinks (l : List Char) : List Char := scanRewriteF linkStep l.length l

/-- The full plain-text Markdown-stripping transform: the six substitutions
in source order (headers, bold, italics, inline code, code blocks, links). -/
def stripMarkdown (s : String) : String :=
  String.mk (removeLinks (removeCodeBlocks (removeInlineCode
    (removeItalic (removeBold (removeHeaders s.data))))))

/-! ### Single-document export (`exportDocument` and the four serializers) -/

/-- The 50-character `=` rule. -/
def eqRule50 : String := jsRepeat "=" 50

/-- The 50-character `-` rule. -/
def dashRule50 : String := jsRepeat "-" 50

/-- The 30-character `-` rule. -/
def dashRule30 : String := jsRepeat "-" 30

/-- The JSON value `data` constructed by `exportAsJSON` (fields in
insertion order; the optional spread of `metadata` when
`includeMetadata`). -/
def exportAsJSONData (nowIso apiName : String) (content : Content)
    (includeMetadata : Bool) : Json :=
  Json.obj
    ([("api", Json.str apiName),
      ("exportDate", Json.str nowIso),
      ("source", Json.str "API Context Hub")]
    ++ (if includeMetadata then
          [("metadata", Json.obj
            [("version", Json.str "1.0"),
             ("url", Json.str "https://api-context-hub.vercel.app"),
             ("purpose", Json.str "AI Development Tool Documentation")])]
        else [])
    ++ [("documentation",
          match content with
          | Content.str s => Json.obj [("content", Json.str s)]
          | c => contentToJson c)])

/-- The function `exportAsJSON` stringifies the `data` object into an
`application/json` blob. -/
def exportAsJSON (nowIso apiName : String) (content : Content)
    (includeMetadata : Bool) : Blob :=
  ⟨BlobData.jsonData (exportAsJSONData nowIso apiName content includeMetadata),
   "application/json"⟩

/-- The front-matter block `exportAsMarkdown` emits when
`includeMetadata`. -/
def mdFrontMatter (nowIso apiName : String) : String :=
  "---\napi: " ++ apiName ++ "\nexportDate: " ++ nowIso ++
  "\nsource: API Context Hub\npurpose: AI Development Tool Documentation\n---\n\n"

/-- Body of the single-document Markdown export: a bare string verbatim;
a structured object's sections each under a `##` heading, separated by a
horizontal rule (the source appends the rule when `index > 0`); nothing
when the object has no `files` field. -/
def mdBody : Content → String
  | Content.str s => s
  | Content.obj (some fs) _ =>
    sepMapJoin "\n\n---\n\n" (fun f => "## " ++ f.title ++ "\n\n" ++ f.content) fs
  | Content.obj none _ => ""

/-- The function `exportAsMarkdown`. -/
def exportAsMarkdown (nowIso nowLocale apiName : String) (content : Content)
    (includeMetadata : Bool) : Blob :=
  ⟨BlobData.text
    ((if includeMetadata then mdFrontMatter nowIso apiName else "")
      ++ "# " ++ apiName ++ " API Documentation\n\n"
      ++ "> Exported from API Context Hub on " ++ nowLocale ++ "\n\n"
      ++ mdBody content),
   "text/markdown"⟩

/-- The `Key: value` metadata block of the single-document text export. -/
def txtMetaBlock (nowIso apiName : String) : String :=
  "API: " ++ apiName ++ "\nExport Date: " ++ nowIso ++
  "\nSource: API Context Hub\nPurpose: AI Development Tool Documentation\n" ++
  eqRule50 ++ "\n\n"

/-- Body of the single-document text export: a bare string is
Markdown-stripped; a structured object's sections are each emitted under
their upper-cased title underlined by a `-` rule of the title's length,
contents Markdown-stripped, separated by a 50-character `-` rule. -/
def txtBody : Content → String
  | Content.str s => stripMarkdown s
  | Content.obj (some fs) _ =>
    sepMapJoin ("\n" ++ dashRule50 ++ "\n\n")
      (fun f => jsToUpper f.title ++ "\n" ++ jsRepeat "-" f.title.length ++ "\n\n"
        ++ stripMarkdown f.content) fs
  | Content.obj none _ => ""

/-- The function `exportAsText`. -/
def exportAsText (nowIso apiName : String) (content : Content)
    (includeMetadata : Bool) : Blob :=
  ⟨BlobData.text
    ((if includeMetadata then txtMetaBlock nowIso apiName else "")
      ++ apiName ++ " API DOCUMENTATION\n" ++ eqRule50 ++ "\n\n"
      ++ txtBody content),
   "text/plain"⟩

/-- The `<metadata>` element of the single-document XML export. -/
def xmlMetaBlock (nowIso apiName : String) : String :=
  "  <metadata>\n    <api>" ++ escapeXML apiName ++ "</api>\n    <exportDate>" ++
  nowIso ++ "</exportDate>\n    <source>API Context Hub</source>\n" ++
  "    <purpose>AI Development Tool Documentation</purpose>\n  </metadata>\n"

/-- The `<section>` elements of the single-document XML export: one anonymous
CDATA section for a bare string; one titled CDATA section per file of a
structured object; nothing when the object has no `files` field. -/
def xmlSections : Content → String
  | Content.str s =>
    "    <section>\n      <data><![CDATA[" ++ s ++ "]]></data>\n    </section>\n"
  | Content.obj (some fs) _ =>
    String.join (fs.map (fun f =>
      "    <section>\n      <title>" ++ escapeXML f.title ++ "</title>\n" ++
      "      <data><![CDATA[" ++ f.content ++ "]]></data>\n    </section>\n"))
  | Content.obj none _ => ""

/-- The function `exportAsXML`. -/
def exportAsXML (nowIso apiName : String) (content : Content)
    (includeMetadata : Bool) : Blob :=
  ⟨BlobData.text
    ("<?xml version=\"1.0\" encoding=\"UTF-8\"?>\n<apiDocumentation>\n"
      ++ (if includeMetadata then xmlMetaBlock nowIso apiName else "")
      ++ "  <content>\n"
      ++ xmlSections content
      ++ "  </content>\n</apiDocumentation>"),
   "application/xml"⟩

/-- The function `exportDocument`: dispatch on the `format` string; any value outside
the four supported ones throws `Unsupported format: {format}` (modelled
as `Except.error`). -/
def exportDocument (nowIso nowLocale format apiName : String)
    (content : Content) (includeMetadata : Bool) : Except String Blob :=
  if format = "json" then
    Except.ok (exportAsJSON nowIso apiName content includeMetadata)
  else if format = "markdown" then
    Except.ok (exportAsMarkdown nowIso nowLocale apiName content includeMetadata)
  else if format = "text" then
    Except.ok (exportAsText nowIso apiName content includeMetadata)
  else if format = "xml" then
    Except.ok (exportAsXML nowIso apiName content includeMetadata)
  else
    Except.error ("Unsupported format: " ++ format)

/-- The function `getFileExtension`: fixed mapping, defaulting to `.txt`. -/
def getFileExtension (format : String) : String :=
  if format = "json" then ".json"
  else if format = "markdown" then ".md"
  else if format = "text" then ".txt"
  else if format = "xml" then ".xml"
  else ".txt"

/-- The function `generateFilename`:
`{lowercased apiName}-api-docs-{timestamp}{extension}` where the
timestamp is `new Date().toISOString().split('T')[0]` (the prefix of the
call-time ISO string before its first `T`). -/
def generateFilename (nowIso apiName format : String) : String :=
  jsToLower apiName ++ "-api-docs-" ++
  String.mk (nowIso.data.takeWhile (fun c => !(c = 'T'))) ++
  getFileExtension format

/-! ### Bulk export (`exportMultipleApis` and the four serializers) -/

/-- One `{name, content}` entry of a bulk export request. -/
structure MultiApi where
  name : String
  content : Content

/-- The JSON value constructed by `exportMultipleAsJSON`. -/
def exportMultipleAsJSONData (nowIso : String) (apis : List MultiApi)
    (includeMetadata : Bool) : Json :=
  Json.obj
    ([("exportDate", Json.str nowIso),
      ("source", Json.str "API Context Hub")]
    ++ (if includeMetadata then
          [("metadata", Json.obj
            [("version", Json.str "1.0"),
             ("url", Json.str "https://api-context-hub.vercel.app"),
             ("purpose", Json.str "AI Development Tool Documentation"),
             ("totalApis", Json.num apis.length)])]
        else [])
    ++ [("apis", Json.arr (apis.map (fun api =>
          Json.obj [("name", Json.str api.name),
                    ("documentation", contentToJson api.content)])))])

/-- The function `exportMultipleAsJSON`. -/
def exportMultipleAsJSON (nowIso : String) (apis : List MultiApi)
    (includeMetadata : Bool) : Blob :=
  ⟨BlobData.jsonData (exportMultipleAsJSONData nowIso apis includeMetadata),
   "application/json"⟩

/-- The front-matter block of the bulk Markdown export. -/
def mdMultiFrontMatter (nowIso : String) (total : Nat) : String :=
  "---\nexportDate: " ++ nowIso ++
  "\nsource: API Context Hub\npurpose: AI Development Tool Documentation\ntotalApis: " ++
  toString total ++ "\n---\n\n"

/-- The anchor of a bulk Markdown table-of-contents entry:
`api.name.toLowerCase().replace` of `\s+` by a hyphen (lower-case the name,
collapse each whitespace run to one hyphen). -/
def collapseWsRuns : List Char → List Char
  | [] => []
  | c :: cs =>
    if isSpaceJS c then
      match cs with
      | [] => ['-']
      | d :: _ => if isSpaceJS d then collapseWsRuns cs else '-' :: collapseWsRuns cs
    else c :: collapseWsRuns cs

/-- The heading anchor derived from an API name. -/
def anchorOf (name : String) : String :=
  String.mk (collapseWsRuns (jsToLower name).data)

/-- The numbered table-of-contents lines of the bulk Markdown export,
`index` starting at `i` (the exporter calls it with `i = 0` and each line
shows `index + 1`). -/
def mdToc : Nat → List MultiApi → String
  | _, [] => ""
  | i, api :: rest =>
    toString (i + 1) ++ ". [" ++ api.name ++ " API](#" ++ anchorOf api.name ++
    "-api)\n" ++ mdToc (i + 1) rest

/-- One API's block in the bulk Markdown export: a `# {name} API` heading,
then the bare string verbatim, or each section under a `##` heading
separated by blank lines. -/
def mdMultiBlock (api : MultiApi) : String :=
  "# " ++ api.name ++ " API\n\n" ++
  (match api.content with
   | Content.str s => s
   | Content.obj (some fs) _ =>
     sepMapJoin "\n\n" (fun f => "## " ++ f.title ++ "\n\n" ++ f.content) fs
   | Content.obj none _ => "")

/-- The function `exportMultipleAsMarkdown`. -/
def exportMultipleAsMarkdown (nowIso nowLocale : String) (apis : List MultiApi)
    (includeMetadata : Bool) : Blob :=
  ⟨BlobData.text
    ((if includeMetadata then mdMultiFrontMatter nowIso apis.length else "")
      ++ "# API Documentation Collection\n\n"
      ++ "> Exported from API Context Hub on " ++ nowLocale ++ "\n\n"
      ++ "## Table of Contents\n\n"
      ++ mdToc 0 apis
      ++ "\n---\n\n"
      ++ sepMapJoin "\n\n---\n\n" mdMultiBlock apis),
   "text/markdown"⟩

/-- The metadata block of the bulk text export. -/
def txtMultiMetaBlock (nowIso : String) (total : Nat) : String :=
  "Export Date: " ++ nowIso ++
  "\nSource: API Context Hub\nPurpose: AI Development Tool Documentation\nTotal APIs: " ++
  toString total ++ "\n" ++ eqRule50 ++ "\n\n"

/-- The numbered table-of-contents lines of the bulk text export. -/
def txtToc : Nat → List MultiApi → String
  | _, [] => ""
  | i, api :: rest =>
    toString (i + 1) ++ ". " ++ api.name ++ " API\n" ++ txtToc (i + 1) rest

/-- The expression `api.content.files?.map(f => f.content).join(blank line) || empty`: the plain
content of one API in the bulk text export — a bare string itself, or the
sections' contents joined by blank lines (section titles are dropped). -/
def multiPlainContent : Content → String
  | Content.str s => s
  | Content.obj (some fs) _ => sepMapJoin "\n\n" (fun f => f.content) fs
  | Content.obj none _ => ""

/-- One API's block in the bulk text export: the upper-cased name with an
`=` underline of length `name.length + 4`, then the Markdown-stripped
plain content. -/
def txtMultiBlock (api : MultiApi) : String :=
  jsToUpper api.name ++ " API\n" ++ jsRepeat "=" (api.name.length + 4) ++ "\n\n" ++
  stripMarkdown (multiPlainContent api.content)

/-- The function `exportMultipleAsText`. -/
def exportMultipleAsText (nowIso : String) (apis : List MultiApi)
    (includeMetadata : Bool) : Blob :=
  ⟨BlobData.text
    ((if includeMetadata then txtMultiMetaBlock nowIso apis.length else "")
      ++ "API DOCUMENTATION COLLECTION\n" ++ eqRule50 ++ "\n\n"
      ++ "TABLE OF CONTENTS\n" ++ dashRule30 ++ "\n"
      ++ txtToc 0 apis
      ++ "\n" ++ eqRule50 ++ "\n\n"
      ++ sepMapJoin ("\n\n" ++ eqRule50 ++ "\n\n") txtMultiBlock apis),
   "text/plain"⟩

/-- The metadata block of the bulk XML export. -/
def xmlMultiMetaBlock (nowIso : String) (total : Nat) : String :=
  "  <metadata>\n    <exportDate>" ++ nowIso ++
  "</exportDate>\n    <source>API Context Hub</source>\n" ++
  "    <purpose>AI Development Tool Documentation</purpose>\n    <totalApis>" ++
  toString total ++ "</totalApis>\n  </metadata>\n"

/-- The `<section>` elements of one API in the bulk XML export (same shape as
the single-document encoding, two levels deeper). -/
def xmlMultiSections : Content → String
  | Content.str s =>
    "        <section>\n          <data><![CDATA[" ++ s ++
    "]]></data>\n        </section>\n"
  | Content.obj (some fs) _ =>
    String.join (fs.map (fun f =>
      "        <section>\n          <title>" ++ escapeXML f.title ++ "</title>\n" ++
      "          <data><![CDATA[" ++ f.content ++ "]]></data>\n        </section>\n"))
  | Content.obj none _ => ""

/-- One `<api>` element of the bulk XML export. -/
def xmlMultiApi (api : MultiApi) : String :=
  "    <api>\n      <name>" ++ escapeXML api.name ++ "</name>\n      <documentation>\n"
  ++ xmlMultiSections api.content
  ++ "      </documentation>\n    </api>\n"

/-- The function `exportMultipleAsXML`. -/
def exportMultipleAsXML (nowIso : String) (apis : List MultiApi)
    (includeMetadata : Bool) : Blob :=
  ⟨BlobData.text
    ("<?xml version=\"1.0\" encoding=\"UTF-8\"?>\n<apiDocumentationCollection>\n"
      ++ (if includeMetadata then xmlMultiMetaBlock nowIso apis.length else "")
      ++ "  <apis>\n"
      ++ String.join (apis.map xmlMultiApi)
      ++ "  </apis>\n</apiDocumentationCollection>"),
   "application/xml"⟩

/-- The function `exportMultipleApis`: dispatch on the `format` string; any value
outside the four supported ones throws `Unsupported format: {format}`. -/
def exportMultipleApis (nowIso nowLocale format : String)
    (apis : List MultiApi) (includeMetadata : Bool) : Except String Blob :=
  if format = "json" then
    Except.ok (exportMultipleAsJSON nowIso apis includeMetadata)
  else if format = "markdown" then
    Except.ok (exportMultipleAsMarkdown nowIso nowLocale apis includeMetadata)
  else if format = "text" then
    Except.ok (exportMultipleAsText nowIso apis includeMetadata)
  else if format = "xml" then
    Except.ok (exportMultipleAsXML nowIso apis includeMetadata)
  else
    Except.error ("Unsupported format: " ++ format)

/-! ### The bulk `GET /api/export` aggregation handler
(`src/app/api/export/route.ts`, concatenated into `src/app/page.tsx` in
this source snapshot) -/

/-- One documentation file as read from disk (`{filename, title, content}`). -/
structure NamedFile where
  filename : String
  title : String
  content : String

/-- The `ApiContent` record as returned by `getApiContent`. -/
structure ApiContent where
  id : String
  name : String
  files : List NamedFile

/-- The function `getAvailableApis`: keys of the metadata table in insertion order. -/
def getAvailableApis : List String :=
  ["stripe", "sendgrid", "twilio", "supabase"]

/-- One entry of the `apis` array of the bulk export response
(`{id, name, content}`). -/
structure ExportUnit where
  id : String
  name : String
  content : ApiContent

/-- An HTTP response of the handler: a status code and the `apis` array. -/
structure GetResponse where
  status : Nat
  apis : List ExportUnit

/-- The `GET /api/export` handler, parameterized by the content loader
(`getApiContent`, which resolves to `null` — here `none` — when an API's
content fails to load): maps every available API id to its loaded unit
or `null`, filters out the `null`s, and responds 200 with the rest. -/
def exportGET (load : String → Option ApiContent) : GetResponse :=
  ⟨200,
   (getAvailableApis.map (fun apiId =>
      (load apiId).map (fun content => ExportUnit.mk apiId content.name content))).reduceOption⟩

/-! ### Helper lemmas -/

/-- The per-character entity map described by the spec: each of the five
characters goes to its entity, every other character to itself. -/
def escChar (x : Char) : List Char :=
  if x = '&' then "&amp;".data
  else if x = '<' then "&lt;".data
  else if x = '>' then "&gt;".data
  else if x = quoteC then "&quot;".data
  else if x = aposC then "&apos;".data
  else [x]

/-- A character that starts none of the six stripping patterns. -/
def notMdChar (c : Char) : Bool :=
  !(c = '#' || c = '*' || c = btick || c = '[')


theorem strJoin_cons (s : String) (l : List String) :
    String.join (s :: l) = s ++ String.join l := by
  rw [String.join_eq, String.join_eq]; rfl

theorem sepMapJoin_eq_intersperse (sep : String) (f : α → String) :
    ∀ l : List α, sepMapJoin sep f l = String.join (List.intersperse sep (l.map f))
  | [] => rfl
  | [a] => by
    simp only [sepMapJoin, List.map, List.intersperse, strJoin_cons]
    rw [show String.join ([] : List String) = "" from rfl, String.append_empty]
  | a :: b :: rest => by
    have ih := sepMapJoin_eq_intersperse sep f (b :: rest)
    simp only [sepMapJoin] at ih ⊢
    rw [ih]
    simp [List.intersperse, strJoin_cons, String.append_assoc]

theorem takeWhile_append_not (p : Char → Bool) :
    ∀ (l1 : List Char) (x : Char) (l2 : List Char),
      (∀ a ∈ l1, p a = true) → p x = false →
      (l1 ++ x :: l2).takeWhile p = l1
  | [], x, l2, _, hx => by simp [List.takeWhile, hx]
  | a :: l1, x, l2, hl, hx => by
    have ha : p a = true := hl a (by simp)
    simp [List.takeWhile, ha]
    exact takeWhile_append_not p l1 x l2 (fun b hb => hl b (by simp [hb])) hx

theorem replaceChar_append (c : Char) (rep : List Char) :
    ∀ l1 l2 : List Char,
      replaceChar c rep (l1 ++ l2) = replaceChar c rep l1 ++ replaceChar c rep l2
  | [], l2 => rfl
  | x :: l1, l2 => by
    by_cases hx : x = c <;>
      simp [replaceChar, hx, replaceChar_append c rep l1 l2]

theorem escapeXMLChars_append (l1 l2 : List Char) :
    escapeXMLChars (l1 ++ l2) = escapeXMLChars l1 ++ escapeXMLChars l2 := by
  simp [escapeXMLChars, replaceChar_append]

theorem escapeXMLChars_single (x : Char) : escapeXMLChars [x] = escChar x := by
  by_cases h1 : x = '&'
  · subst h1; decide
  · by_cases h2 : x = '<'
    · subst h2; decide
    · by_cases h3 : x = '>'
      · subst h3; decide
      · by_cases h4 : x = quoteC
        · subst h4; decide
        · by_cases h5 : x = aposC
          · subst h5; decide
          · simp [escapeXMLChars, replaceChar, escChar, h1, h2, h3, h4, h5]

theorem escapeXMLChars_eq_flatMap :
    ∀ l : List Char, escapeXMLChars l = l.flatMap escChar
  | [] => rfl
  | x :: l => by
    have : x :: l = [x] ++ l := rfl
    rw [this, escapeXMLChars_append, escapeXMLChars_single,
      escapeXMLChars_eq_flatMap l]
    rfl

theorem headerStep_none (c : Char) (cs : List Char) (h : ¬ c = '#') :
    headerStep (c :: cs) = none := by
  simp [headerStep, hashRun, h]

theorem boldStep_none (c : Char) (cs : List Char) (h : ¬ c = '*') :
    boldStep (c :: cs) = none := by
  cases cs <;> simp [boldStep, h]

theorem italicStep_none (c : Char) (cs : List Char) (h : ¬ c = '*') :
    italicStep (c :: cs) = none := by
  simp [italicStep, h]

theorem inlineCodeStep_none (c : Char) (cs : List Char) (h : ¬ c = btick) :
    inlineCodeStep (c :: cs) = none := by
  simp [inlineCodeStep, h]

theorem codeBlockStep_none (c : Char) (cs : List Char) (h : ¬ c = btick) :
    codeBlockStep (c :: cs) = none := by
  cases cs with
  | nil => rfl
  | cons b t => cases t <;> simp [codeBlockStep, h]

theorem linkStep_none (c : Char) (cs : List Char) (h : ¬ c = '[') :
    linkStep (c :: cs) = none := by
  simp [linkStep, h]

/-- A scanning pass is the identity on inputs none of whose characters
can start a match. -/
theorem scanRewriteF_id (step : List Char → Option (List Char × List Char))
    (p : Char → Bool)
    (hstep : ∀ c cs, p c = true → step (c :: cs) = none) :
    ∀ (fuel : Nat) (l : List Char), l.all p = true → scanRewriteF step fuel l = l := by
  intro fuel
  induction fuel with
  | zero => intro l _; cases l <;> rfl
  | succ n ih =>
    intro l hl
    cases l with
    | nil => rfl
    | cons c cs =>
      rw [List.all_cons, Bool.and_eq_true] at hl
      simp only [scanRewriteF, hstep c cs hl.1]
      rw [ih cs hl.2]

theorem stripMarkdown_id (s : String) (h : s.data.all notMdChar = true) :
    stripMarkdown s = s := by
  have hHash : ∀ c, notMdChar c = true → ¬ c = '#' := by
    intro c hc; simp [notMdChar] at hc; tauto
  have hStar : ∀ c, notMdChar c = true → ¬ c = '*' := by
    intro c hc; simp [notMdChar] at hc; tauto
  have hTick : ∀ c, notMdChar c = true → ¬ c = btick := by
    intro c hc; simp [notMdChar] at hc; tauto
  have hBrk : ∀ c, notMdChar c = true → ¬ c = '[' := by
    intro c hc; simp [notMdChar] at hc; tauto
  have h1 : removeHeaders s.data = s.data :=
    scanRewriteF_id headerStep notMdChar
      (fun c cs hc => headerStep_none c cs (hHash c hc)) _ _ h
  have h2 : removeBold s.data = s.data := by
    unfold removeBold
    exact scanRewriteF_id boldStep notMdChar
      (fun c cs hc => boldStep_none c cs (hStar c hc)) _ _ h
  have h3 : removeItalic s.data = s.data := by
    unfold removeItalic
    exact scanRewriteF_id italicStep notMdChar
      (fun c cs hc => italicStep_none c cs (hStar c hc)) _ _ h
  have h4 : removeInlineCode s.data = s.data := by
    unfold removeInlineCode
    exact scanRewriteF_id inlineCodeStep notMdChar
      (fun c cs hc => inlineCodeStep_none c cs (hTick c hc)) _ _ h
  have h5 : removeCodeBlocks s.data = s.data := by
    unfold removeCodeBlocks
    exact scanRewriteF_id codeBlockStep notMdChar
      (fun c cs hc => codeBlockStep_none c cs (hTick c hc)) _ _ h
  have h6 : removeLinks s.data = s.data := by
    unfold removeLinks
    exact scanRewriteF_id linkStep notMdChar
      (fun c cs hc => linkStep_none c cs (hBrk c hc)) _ _ h
  unfold stripMarkdown
  rw [h1, h2, h3, h4, h5, h6]

/-- Closed form of the bulk Markdown table of contents: one line per API,
numbered consecutively from `i + 1`, in input order. -/
theorem mdToc_eq (i : Nat) (apis : List MultiApi) :
    mdToc i apis =
      String.join ((apis.enumFrom (i + 1)).map (fun p =>
        toString p.1 ++ ". [" ++ p.2.name ++ " API](#" ++ anchorOf p.2.name ++ "-api)\n")) := by
  induction apis generalizing i with
  | nil => rfl
  | cons a rest ih =>
    show toString (i + 1) ++ ". [" ++ a.name ++ " API](#" ++ anchorOf a.name ++
        "-api)\n" ++ mdToc (i + 1) rest = _
    rw [ih (i + 1)]
    rw [show (a :: rest).enumFrom (i + 1) = (i + 1, a) :: rest.enumFrom (i + 2) from rfl]
    rw [List.map_cons, strJoin_cons]

/-- Closed form of the bulk text table of contents. -/
theorem txtToc_eq (i : Nat) (apis : List MultiApi) :
    txtToc i apis =
      String.join ((apis.enumFrom (i + 1)).map (fun p =>
        toString p.1 ++ ". " ++ p.2.name ++ " API\n")) := by
  induction apis generalizing i with
  | nil => rfl
  | cons a rest ih =>
    show toString (i + 1) ++ ". " ++ a.name ++ " API\n" ++ txtToc (i + 1) rest = _
    rw [ih (i + 1)]
    rw [show (a :: rest).enumFrom (i + 1) = (i + 1, a) :: rest.enumFrom (i + 2) from rfl]
    rw [List.map_cons, strJoin_cons]

theorem filterMap_load_ids (load : String → Option ApiContent) :
    ∀ ids : List String,
      (ids.filterMap (fun i => (load i).map
          (fun c => ExportUnit.mk i c.name c))).map (fun u => u.id) =
        ids.filter (fun i => (load i).isSome)
  | [] => rfl
  | i :: ids => by
    cases h : load i <;>
      simp [h, filterMap_load_ids load ids]

theorem filterMap_load_mem (load : String → Option ApiContent) :
    ∀ ids : List String,
      ∀ u ∈ ids.filterMap (fun i => (load i).map
          (fun c => ExportUnit.mk i c.name c)),
        load u.id = some u.content ∧ u.name = u.content.name
  | [] => by intro u hu; cases hu
  | i :: ids => by
    intro u hu
    cases h : load i with
    | none =>
      rw [List.filterMap_cons, h] at hu
      exact filterMap_load_mem load ids u hu
    | some c =>
      rw [List.filterMap_cons, h] at hu
      rcases List.mem_cons.mp hu with h' | h'
      · subst h'; exact ⟨h, rfl⟩
      · exact filterMap_load_mem load ids u h'

/-! ### Claim theorems -/

/-- C4: `escapeXML` replaces each occurrence of the five characters
`&`, `<`, `>`, `"`, `'` with `&amp;`, `&lt;`, `&gt;`, `&quot;`, `&apos;`
respectively and leaves every other character unchanged — equivalently,
it is the character-wise entity map `escChar` applied to every character,
for arbitrary strings and any combination including adjacency; in
particular escaping `"<<&>>"` yields `"&lt;&lt;&amp;&gt;&gt;"`. -/
theorem escapeXML_entity_map :
    (∀ s : String, escapeXML s = String.mk (s.data.flatMap escChar)) ∧
    escapeXML "<<&>>" = "&lt;&lt;&amp;&gt;&gt;" := by
  constructor
  · intro s
    unfold escapeXML
    rw [escapeXMLChars_eq_flatMap]
  · decide

/-- C8: `generateFilename apiName format` is the lowercased `apiName`,
then `-api-docs-`, then the date part of the call-time ISO timestamp
(the prefix before the first `T`), then the format's extension
(`json → .json`, `markdown → .md`, `text → .txt`, `xml → .xml`); for a
clock dated 2025-06-19, `generateFilename "Stripe" "json"` is
`"stripe-api-docs-2025-06-19.json"`. -/
theorem generateFilename_spec :
    (∀ date rest apiName format : String, ¬ ('T' ∈ date.data) →
      generateFilename (date ++ "T" ++ rest) apiName format =
        jsToLower apiName ++ "-api-docs-" ++ date ++ getFileExtension format) ∧
    getFileExtension "json" = ".json" ∧ getFileExtension "markdown" = ".md" ∧
    getFileExtension "text" = ".txt" ∧ getFileExtension "xml" = ".xml" ∧
    generateFilename "2025-06-19T12:00:00.000Z" "Stripe" "json" =
      "stripe-api-docs-2025-06-19.json" := by
  refine ⟨?_, rfl, rfl, rfl, rfl, by decide⟩
  intro date rest apiName format hT
  unfold generateFilename
  have hdata : (date ++ "T" ++ rest).data = date.data ++ 'T' :: rest.data := by
    show (date.data ++ ['T']) ++ rest.data = date.data ++ 'T' :: rest.data
    rw [List.append_assoc]
    rfl
  rw [hdata, takeWhile_append_not _ date.data 'T' rest.data
    (fun a ha => by
      simp only [Bool.not_eq_true']
      exact decide_eq_false (fun h => hT (h ▸ ha)))
    (by decide)]

/-- C8 witness: the general filename equation applied at the concrete
clock `2025-06-19T12:00:00.000Z`. -/
theorem generateFilename_spec_witness :
    generateFilename ("2025-06-19" ++ "T" ++ "12:00:00.000Z") "Stripe" "json" =
      jsToLower "Stripe" ++ "-api-docs-" ++ "2025-06-19" ++ getFileExtension "json" :=
  generateFilename_spec.1 "2025-06-19" "12:00:00.000Z" "Stripe" "json" (by decide)

/-- C5: for every `format` value outside `{json, markdown, text, xml}`,
both `exportDocument` and `exportMultipleApis` fail fast with an error
naming the bad value and produce no blob; for each of the four supported
values they return a blob without throwing. -/
theorem exportUnsupportedFormat :
    ∀ (format nowIso nowLocale apiName : String) (content : Content)
      (apis : List MultiApi) (meta : Bool),
      (format ≠ "json" → format ≠ "markdown" → format ≠ "text" → format ≠ "xml" →
        exportDocument nowIso nowLocale format apiName content meta =
          Except.error ("Unsupported format: " ++ format) ∧
        exportMultipleApis nowIso nowLocale format apis meta =
          Except.error ("Unsupported format: " ++ format)) ∧
      (∀ f ∈ (["json", "markdown", "text", "xml"] : List String),
        (∃ b, exportDocument nowIso nowLocale f apiName content meta = Except.ok b) ∧
        (∃ b, exportMultipleApis nowIso nowLocale f apis meta = Except.ok b)) := by
  intro format nowIso nowLocale apiName content apis meta
  constructor
  · intro h1 h2 h3 h4
    constructor <;> simp [exportDocument, exportMultipleApis, h1, h2, h3, h4]
  · intro f hf
    fin_cases hf <;> exact ⟨⟨_, rfl⟩, ⟨_, rfl⟩⟩

/-- C5 witness: the unsupported value `yaml` is rejected by both entry
points with the error naming it. -/
theorem exportUnsupportedFormat_witness :
    exportDocument "" "" "yaml" "X" (Content.str "c") true =
      Except.error ("Unsupported format: " ++ "yaml") ∧
    exportMultipleApis "" "" "yaml" [] true =
      Except.error ("Unsupported format: " ++ "yaml") :=
  (exportUnsupportedFormat "yaml" "" "" "X" (Content.str "c") [] true).1
    (by decide) (by decide) (by decide) (by decide)

/-- C3 counterexample: the stripping transform is not idempotent — on
the input ``"`#` a"`` the first pass unwraps the inline code span to
`"# a"`, and the second pass then removes the freshly exposed heading
marker, yielding `"a"`. -/
theorem stripMarkdown_not_idempotent :
    stripMarkdown "`#` a" = "# a" ∧
    stripMarkdown (stripMarkdown "`#` a") = "a" ∧
    stripMarkdown (stripMarkdown "`#` a") ≠ stripMarkdown "`#` a" := by
  refine ⟨by decide, by decide, by decide⟩

/-- C3 (amended): the stripping transform is idempotent on every string
whose first-pass output contains none of the marker characters `#`, `*`,
backtick, `[` (on such outputs every pass is the identity); in particular
stripping `"**bold**"` yields `"bold"` and stripping `"bold"` again
yields `"bold"`.  It is not idempotent for arbitrary strings. -/
theorem stripMarkdown_idempotent_on_stripped :
    (∀ s : String, (stripMarkdown s).data.all notMdChar = true →
      stripMarkdown (stripMarkdown s) = stripMarkdown s) ∧
    stripMarkdown "**bold**" = "bold" ∧ stripMarkdown "bold" = "bold" :=
  ⟨fun _ h => stripMarkdown_id _ h, by decide, by decide⟩

/-- C3 witness: idempotence at the concrete input `"**bold**"`. -/
theorem stripMarkdown_idempotent_on_stripped_witness :
    stripMarkdown (stripMarkdown "**bold**") = stripMarkdown "**bold**" :=
  stripMarkdown_idempotent_on_stripped.1 "**bold**" (by decide)

/-- C6: the bulk `GET /api/export` handler always responds 200; its
`apis` array is exactly the successfully loaded units in the original
order of the available API ids, for every combination of failing entries
(a failed load is silently excluded and never fails the whole request). -/
theorem exportGET_bestEffort :
    ∀ load : String → Option ApiContent,
      (exportGET load).status = 200 ∧
      (exportGET load).apis =
        getAvailableApis.filterMap (fun i => (load i).map
          (fun c => ExportUnit.mk i c.name c)) ∧
      (exportGET load).apis.map (fun u => u.id) =
        getAvailableApis.filter (fun i => (load i).isSome) ∧
      (∀ u ∈ (exportGET load).apis,
        load u.id = some u.content ∧ u.name = u.content.name) := by
  intro load
  have hfm : (exportGET load).apis =
      getAvailableApis.filterMap (fun i => (load i).map
        (fun c => ExportUnit.mk i c.name c)) := by
    simp [exportGET, List.reduceOption, List.filterMap_map, Function.comp]
  refine ⟨rfl, hfm, ?_, ?_⟩
  · rw [hfm]; exact filterMap_load_ids load _
  · rw [hfm]; exact filterMap_load_mem load _

/-- C6 witness: with a loader that fails only on `sendgrid`, the response
is 200 and contains exactly the other three units in order. -/
theorem exportGET_bestEffort_witness :
    (exportGET (fun i => if i = "sendgrid" then none
        else some (ApiContent.mk i i []))).status = 200 ∧
    (exportGET (fun i => if i = "sendgrid" then none
        else some (ApiContent.mk i i []))).apis.map (fun u => u.id) =
      ["stripe", "twilio", "supabase"] := by
  refine ⟨(exportGET_bestEffort _).1, ?_⟩
  rw [(exportGET_bestEffort (fun i => if i = "sendgrid" then none
    else some (ApiContent.mk i i []))).2.2.1]
  decide

/-- C1: single-document JSON export round-trip — the exported (and, once
parsed back, recovered) JSON object carries the original `apiName` under
`api`; its `documentation` field is `{content}` for a bare string input,
and for structured input it is the original object with the sections
array unchanged, each entry keeping its `title` and `content` keys. -/
theorem exportAsJSON_roundtrip :
    ∀ (nowIso nowLocale apiName : String) (meta : Bool),
      (∀ content, exportDocument nowIso nowLocale "json" apiName content meta =
        Except.ok (exportAsJSON nowIso apiName content meta)) ∧
      (∀ content, (exportAsJSON nowIso apiName content meta).data =
        BlobData.jsonData (exportAsJSONData nowIso apiName content meta)) ∧
      (∀ content, jsonLookup "api" (exportAsJSONData nowIso apiName content meta) =
        some (Json.str apiName)) ∧
      (∀ s, jsonLookup "documentation"
          (exportAsJSONData nowIso apiName (Content.str s) meta) =
        some (Json.obj [("content", Json.str s)])) ∧
      (∀ fs rest, jsonLookup "documentation"
          (exportAsJSONData nowIso apiName (Content.obj (some fs) rest) meta) =
        some (Json.obj (("files", Json.arr (fs.map sectionToJson)) :: rest))) ∧
      (∀ f, sectionToJson f =
        Json.obj [("title", Json.str f.title), ("content", Json.str f.content)]) := by
  intro nowIso nowLocale apiName meta
  refine ⟨fun _ => rfl, fun _ => rfl, ?_, ?_, ?_, fun _ => rfl⟩
  · intro content; cases meta <;> rfl
  · intro s; cases meta <;> rfl
  · intro fs rest; cases meta <;> rfl

/-- C9: for an object-shaped content value with no `files` field,
`exportDocument` succeeds in all four formats; the Markdown, text and XML
outputs consist of the header material with an empty body (zero
sections), and the JSON output nests the object unchanged under
`documentation`. -/
theorem exportDocument_noFilesField :
    ∀ (nowIso nowLocale apiName : String) (rest : List (String × Json)) (meta : Bool),
      exportDocument nowIso nowLocale "json" apiName (Content.obj none rest) meta =
        Except.ok (exportAsJSON nowIso apiName (Content.obj none rest) meta) ∧
      jsonLookup "documentation"
          (exportAsJSONData nowIso apiName (Content.obj none rest) meta) =
        some (Json.obj rest) ∧
      exportDocument nowIso nowLocale "markdown" apiName (Content.obj none rest) meta =
        Except.ok (exportAsMarkdown nowIso nowLocale apiName (Content.obj none rest) meta) ∧
      (exportAsMarkdown nowIso nowLocale apiName (Content.obj none rest) meta).data =
        BlobData.text
          ((if meta then mdFrontMatter nowIso apiName else "")
            ++ "# " ++ apiName ++ " API Documentation\n\n"
            ++ "> Exported from API Context Hub on " ++ nowLocale ++ "\n\n"
            ++ "") ∧
      exportDocument nowIso nowLocale "text" apiName (Content.obj none rest) meta =
        Except.ok (exportAsText nowIso apiName (Content.obj none rest) meta) ∧
      (exportAsText nowIso apiName (Content.obj none rest) meta).data =
        BlobData.text
          ((if meta then txtMetaBlock nowIso apiName else "")
            ++ apiName ++ " API DOCUMENTATION\n" ++ eqRule50 ++ "\n\n"
            ++ "") ∧
      exportDocument nowIso nowLocale "xml" apiName (Content.obj none rest) meta =
        Except.ok (exportAsXML nowIso apiName (Content.obj none rest) meta) ∧
      (exportAsXML nowIso apiName (Content.obj none rest) meta).data =
        BlobData.text
          ("<?xml version=\"1.0\" encoding=\"UTF-8\"?>\n<apiDocumentation>\n"
            ++ (if meta then xmlMetaBlock nowIso apiName else "")
            ++ "  <content>\n"
            ++ ""
            ++ "  </content>\n</apiDocumentation>") := by
  intro nowIso nowLocale apiName rest meta
  refine ⟨rfl, ?_, rfl, rfl, rfl, rfl, rfl, rfl⟩
  cases meta <;> rfl

/-- C7: bulk export of an empty API list succeeds in all four formats and
produces a well-formed document: a JSON object whose `apis` array is
empty, Markdown and text documents whose table-of-contents section is
empty, and an XML document with an empty `<apis>` element. -/
theorem exportMultipleApis_empty :
    ∀ nowIso nowLocale : String,
      exportMultipleApis nowIso nowLocale "json" [] true =
        Except.ok (exportMultipleAsJSON nowIso [] true) ∧
      jsonLookup "apis" (exportMultipleAsJSONData nowIso [] true) =
        some (Json.arr []) ∧
      exportMultipleApis nowIso nowLocale "markdown" [] true =
        Except.ok (exportMultipleAsMarkdown nowIso nowLocale [] true) ∧
      (exportMultipleAsMarkdown nowIso nowLocale [] true).data =
        BlobData.text
          (mdMultiFrontMatter nowIso 0
            ++ "# API Documentation Collection\n\n"
            ++ "> Exported from API Context Hub on " ++ nowLocale ++ "\n\n"
            ++ "## Table of Contents\n\n"
            ++ ""
            ++ "\n---\n\n"
            ++ "") ∧
      exportMultipleApis nowIso nowLocale "text" [] true =
        Except.ok (exportMultipleAsText nowIso [] true) ∧
      (exportMultipleAsText nowIso [] true).data =
        BlobData.text
          (txtMultiMetaBlock nowIso 0
            ++ "API DOCUMENTATION COLLECTION\n" ++ eqRule50 ++ "\n\n"
            ++ "TABLE OF CONTENTS\n" ++ dashRule30 ++ "\n"
            ++ ""
            ++ "\n" ++ eqRule50 ++ "\n\n"
            ++ "") ∧
      exportMultipleApis nowIso nowLocale "xml" [] true =
        Except.ok (exportMultipleAsXML nowIso [] true) ∧
      (exportMultipleAsXML nowIso [] true).data =
        BlobData.text
          ("<?xml version=\"1.0\" encoding=\"UTF-8\"?>\n<apiDocumentationCollection>\n"
            ++ xmlMultiMetaBlock nowIso 0
            ++ "  <apis>\n"
            ++ ""
            ++ "  </apis>\n</apiDocumentationCollection>") := by
  intro nowIso nowLocale
  exact ⟨rfl, rfl, rfl, rfl, rfl, rfl, rfl, rfl⟩

/-- C2: bulk Markdown export structure — after the optional front matter
it emits the `# API Documentation Collection` title, the byline, the
`## Table of Contents` with exactly one numbered entry per API in input
order (each linking to the anchor `{lower-cased name, whitespace runs
collapsed to hyphens}-api`), then the API blocks — each a `# {name} API`
heading with its sections under `##` headings — with a horizontal rule
between consecutive APIs and none added before the first block; for APIs
named `Stripe` and `Sendgrid` the two entries use the anchors
`stripe-api` and `sendgrid-api`. -/
theorem exportMultipleAsMarkdown_structure :
    (∀ (nowIso nowLocale : String) (apis : List MultiApi) (meta : Bool),
      (exportMultipleAsMarkdown nowIso nowLocale apis meta).data =
        BlobData.text
          ((if meta then mdMultiFrontMatter nowIso apis.length else "")
            ++ "# API Documentation Collection\n\n"
            ++ "> Exported from API Context Hub on " ++ nowLocale ++ "\n\n"
            ++ "## Table of Contents\n\n"
            ++ String.join ((apis.enumFrom 1).map (fun p =>
                 toString p.1 ++ ". [" ++ p.2.name ++ " API](#"
                   ++ anchorOf p.2.name ++ "-api)\n"))
            ++ "\n---\n\n"
            ++ String.join (List.intersperse "\n\n---\n\n" (apis.map mdMultiBlock)))) ∧
    (∀ name s, mdMultiBlock ⟨name, Content.str s⟩ = "# " ++ name ++ " API\n\n" ++ s) ∧
    (∀ name fs rest, mdMultiBlock ⟨name, Content.obj (some fs) rest⟩ =
      "# " ++ name ++ " API\n\n"
        ++ String.join (List.intersperse "\n\n"
             (fs.map (fun f => "## " ++ f.title ++ "\n\n" ++ f.content)))) ∧
    anchorOf "Stripe" = "stripe" ∧ anchorOf "Sendgrid" = "sendgrid" ∧
    (∀ c1 c2, mdToc 0 [⟨"Stripe", c1⟩, ⟨"Sendgrid", c2⟩] =
      "1. [Stripe API](#stripe-api)\n2. [Sendgrid API](#sendgrid-api)\n") := by
  refine ⟨?_, fun _ _ => rfl, ?_, by decide, by decide, fun _ _ => rfl⟩
  · intro nowIso nowLocale apis meta
    show BlobData.text _ = BlobData.text _
    rw [mdToc_eq 0 apis, sepMapJoin_eq_intersperse "\n\n---\n\n" mdMultiBlock apis]
  · intro name fs rest
    show "# " ++ name ++ " API\n\n" ++ sepMapJoin "\n\n" _ fs = _
    rw [sepMapJoin_eq_intersperse]

/-- C10: the bulk text export emits, beneath each upper-cased API title
and its `=` underline, only the sections' `content` strings joined by
blank lines and then Markdown-stripped — no per-section title or
underline — whereas the single-document text export precedes each
section's stripped content with its upper-cased title underlined by a
`-` rule of the title's length. -/
theorem exportMultipleAsText_drops_titles :
    (∀ (nowIso : String) (apis : List MultiApi) (meta : Bool),
      (exportMultipleAsText nowIso apis meta).data =
        BlobData.text
          ((if meta then txtMultiMetaBlock nowIso apis.length else "")
            ++ "API DOCUMENTATION COLLECTION\n" ++ eqRule50 ++ "\n\n"
            ++ "TABLE OF CONTENTS\n" ++ dashRule30 ++ "\n"
            ++ String.join ((apis.enumFrom 1).map (fun p =>
                 toString p.1 ++ ". " ++ p.2.name ++ " API\n"))
            ++ "\n" ++ eqRule50 ++ "\n\n"
            ++ String.join (List.intersperse ("\n\n" ++ eqRule50 ++ "\n\n")
                 (apis.map txtMultiBlock)))) ∧
    (∀ name fs rest, txtMultiBlock ⟨name, Content.obj (some fs) rest⟩ =
      jsToUpper name ++ " API\n" ++ jsRepeat "=" (name.length + 4) ++ "\n\n"
        ++ stripMarkdown (String.join (List.intersperse "\n\n"
             (fs.map (fun f => f.content))))) ∧
    (∀ (nowIso apiName : String) (fs : List FileSection)
        (rest : List (String × Json)) (meta : Bool),
      (exportAsText nowIso apiName (Content.obj (some fs) rest) meta).data =
        BlobData.text
          ((if meta then txtMetaBlock nowIso apiName else "")
            ++ apiName ++ " API DOCUMENTATION\n" ++ eqRule50 ++ "\n\n"
            ++ String.join (List.intersperse ("\n" ++ dashRule50 ++ "\n\n")
                 (fs.map (fun f => jsToUpper f.title ++ "\n"
                   ++ jsRepeat "-" f.title.length ++ "\n\n"
                   ++ stripMarkdown f.content))))) := by
  refine ⟨?_, ?_, ?_⟩
  · intro nowIso apis meta
    show BlobData.text _ = BlobData.text _
    rw [txtToc_eq 0 apis,
      sepMapJoin_eq_intersperse ("\n\n" ++ eqRule50 ++ "\n\n") txtMultiBlock apis]
  · intro name fs rest
    show jsToUpper name ++ " API\n" ++ jsRepeat "=" (name.length + 4) ++ "\n\n"
        ++ stripMarkdown (sepMapJoin "\n\n" _ fs) = _
    rw [sepMapJoin_eq_intersperse]
  · intro nowIso apiName fs rest meta
    show BlobData.text _ = BlobData.text _
    rw [show txtBody (Content.obj (some fs) rest) =
      sepMapJoin ("\n" ++ dashRule50 ++ "\n\n")
        (fun f => jsToUpper f.title ++ "\n" ++ jsRepeat "-" f.title.length ++ "\n\n"
          ++ stripMarkdown f.content) fs from rfl]
    rw [sepMapJoin_eq_intersperse]
